import Mathlib

/-!
Verification of the session keystore and UI event handlers of the
ColdEmail repository (ColdEmail.py, Cold_Email.py, Subject-Time-Manger.py),
as a shallow embedding in Lean.  Stateful Streamlit `session_state` code is
modelled by explicit state passing; Python dictionaries become functions
into `Option`; fallible code returns `Option` or `Except`.
-/

namespace ColdEmailRepo

/-- Python-like runtime values stored in the Streamlit session keystore
(`st.session_state`).  Only the coarse structure matters for the keystore
claims: `pnone` is Python `None`, `plist`/`pdict` are lists and dicts,
`pstr` a string. -/
inductive PyVal where
  | pnone : PyVal
  | plist : List PyVal → PyVal
  | pdict : List (String × PyVal) → PyVal
  | pstr : String → PyVal

/-- The Streamlit `st.session_state`: a string-keyed mapping. -/
abbrev Store := String → Option PyVal

/-- Writing one key of the session state. -/
def storeSet (s : Store) (k : String) (v : PyVal) : Store :=
  fun q => if q = k then some v else s q

/-- Embeds `get_user_prefix` and `get_user_key` of Subject-Time-Manger.py
(lines 36-45): with no active credential hash the namespace prefix is
empty; with hash `h` every key is prefixed by `user_` ++ h ++ `_`.
The hash is md5(credential)[:16], so it is 16 characters long. -/
def getUserKey (ns : Option String) (base_key : String) : String :=
  match ns with
  | none => base_key
  | some h => "user_" ++ h ++ "_" ++ base_key

/-- The base keys the program stores per namespace
(Subject-Time-Manger.py line 62). -/
def dataKeys : List String :=
  ["subjects", "syllabus", "study_routine", "test_history", "current_test",
   "test_answers", "homework_chat", "definitions_chat"]

/-- The per-key defaults of `ensure_user_data_exists`
(Subject-Time-Manger.py line 63). -/
def dataDefaults : List PyVal :=
  [.plist [], .pdict [], .pnone, .plist [], .pnone, .pdict [], .plist [],
   .plist []]

/-- Embeds the default-resolution branch of `get_user_data`
(Subject-Time-Manger.py lines 50-51): a `None` default is replaced by an
empty list, empty dict or `None` depending on the base key. -/
def resolveDefault (base_key : String) (d : PyVal) : PyVal :=
  match d with
  | .pnone =>
      if base_key = "subjects" ∨ base_key = "test_history" ∨
         base_key = "homework_chat" ∨ base_key = "definitions_chat" then
        .plist []
      else if base_key = "syllabus" ∨ base_key = "test_answers" then
        .pdict []
      else
        .pnone
  | v => v

/-- Embeds `get_user_data` (Subject-Time-Manger.py lines 48-54): look up
the prefixed key; if absent, materialize the resolved default and return
it, otherwise return the stored value.  Returns the value together with
the possibly-updated store. -/
def get_user_data (ns : Option String) (base_key : String) (d : PyVal)
    (s : Store) : PyVal × Store :=
  match s (getUserKey ns base_key) with
  | some v => (v, s)
  | none =>
      let dv := resolveDefault base_key d
      (dv, storeSet s (getUserKey ns base_key) dv)

/-- Embeds `set_user_data` (Subject-Time-Manger.py lines 57-58). -/
def set_user_data (ns : Option String) (base_key : String) (v : PyVal)
    (s : Store) : Store :=
  storeSet s (getUserKey ns base_key) v

/-- Embeds `ensure_user_data_exists` (Subject-Time-Manger.py lines 61-65):
for each known key, a `get_user_data` call materializes the default when
the prefixed key is absent. -/
def ensure_user_data_exists (ns : Option String) (s : Store) : Store :=
  (dataKeys.zip dataDefaults).foldl
    (fun st kd => (get_user_data ns kd.1 kd.2 st).2) s

/-- Embeds the API-key change handler of Subject-Time-Manger.py
(lines 172-183): if the entered key differs from the previous one it is
stored verbatim; a non-empty key activates the namespace of its
fingerprint `fp input` and runs `ensure_user_data_exists` there, an empty
key deactivates the namespace.  `fp` abstracts `get_api_key_hash`
(md5 hexdigest truncated to 16 characters).  Returns the stored key, the
new active hash, and the new store. -/
def stmApiKeyChange (fp : String → String) (input prev : String)
    (hash0 : Option String) (s : Store) : String × Option String × Store :=
  if input = prev then (prev, hash0, s)
  else if input = "" then (input, none, s)
  else (input, some (fp input), ensure_user_data_exists (some (fp input)) s)

/-! ### Keystore lemmas -/

lemma dataKeys_length_le (k : String) (hk : k ∈ dataKeys) : k.length ≤ 16 := by
  fin_cases hk <;> decide

/-- Keys of distinct namespaces never collide, provided fingerprints have
their actual length (16 characters) and the base key is one the program
uses. -/
lemma getUserKey_ne (h1 : String) (ns2 : Option String)
    (hlen1 : h1.length = 16)
    (hval : ∀ h, ns2 = some h → h.length = 16)
    (hne : ns2 ≠ some h1)
    (k1 k2 : String) (hk2 : k2 ∈ dataKeys) :
    getUserKey (some h1) k1 ≠ getUserKey ns2 k2 := by
  cases ns2 with
  | none =>
      intro h
      have hlen := congrArg String.length h
      have h16 := dataKeys_length_le k2 hk2
      simp only [getUserKey, String.length_append, hlen1] at hlen
      have h5 : ("user_" : String).length = 5 := rfl
      have hu : ("_" : String).length = 1 := rfl
      rw [h5, hu] at hlen
      omega
  | some h2 =>
      have hlen2 := hval h2 rfl
      intro h
      have hd := congrArg String.data h
      simp only [getUserKey, String.data_append, List.append_assoc] at hd
      have hd2 := List.append_cancel_left hd
      have hinj := List.append_inj hd2 (by
        have e1 : h1.data.length = 16 := hlen1
        have e2 : h2.data.length = 16 := hlen2
        omega)
      exact hne (by rw [String.ext hinj.1])

/-- `get_user_data` never overwrites an existing binding. -/
lemma get_user_data_preserves (ns : Option String) (base_key : String)
    (d : PyVal) (s : Store) (k : String) (v : PyVal) (h : s k = some v) :
    (get_user_data ns base_key d s).2 k = some v := by
  unfold get_user_data
  cases hs : s (getUserKey ns base_key) with
  | some w => simpa using h
  | none =>
      simp only [storeSet]
      by_cases hk : k = getUserKey ns base_key
      · rw [hk] at h; rw [h] at hs; cases hs
      · simpa [hk] using h

lemma foldl_get_user_data_preserves (ns : Option String)
    (l : List (String × PyVal)) (s : Store) (k : String) (v : PyVal)
    (h : s k = some v) :
    (l.foldl (fun st kd => (get_user_data ns kd.1 kd.2 st).2) s) k
      = some v := by
  induction l generalizing s with
  | nil => simpa using h
  | cons kd tl ih =>
      exact ih _ (get_user_data_preserves ns kd.1 kd.2 s k v h)

/-- `ensure_user_data_exists` never overwrites an existing binding. -/
lemma ensure_user_data_exists_preserves (ns : Option String) (s : Store)
    (k : String) (v : PyVal) (h : s k = some v) :
    ensure_user_data_exists ns s k = some v :=
  foldl_get_user_data_preserves ns _ s k v h

/-! ### Claims C1 and C2 -/

/-- Claim C1: for two credentials whose fingerprints differ (and likewise
for the anonymous namespace), a value written through `set_user_data`
while one fingerprint is the active namespace is never returned by
`get_user_data` scoped to the other namespace: reads and writes are fully
determined by the prefixed key `user_` ++ fingerprint ++ `_` ++ base key,
so the read under namespace `ns2` is unaffected by the write under the
namespace of `h1`. -/
theorem user_data_namespace_isolation (h1 : String) (ns2 : Option String)
    (hlen1 : h1.length = 16)
    (hval : ∀ h, ns2 = some h → h.length = 16)
    (hne : ns2 ≠ some h1)
    (k1 k2 : String) (hk1 : k1 ∈ dataKeys) (hk2 : k2 ∈ dataKeys)
    (v d : PyVal) (s : Store) :
    (get_user_data ns2 k2 d (set_user_data (some h1) k1 v s)).1
      = (get_user_data ns2 k2 d s).1 := by
  have hkey := getUserKey_ne h1 ns2 hlen1 hval hne k1 k2 hk2
  simp only [get_user_data, set_user_data, storeSet]
  rw [if_neg (fun e => hkey e.symm)]
  cases s (getUserKey ns2 k2) <;> rfl

/-- Witness for C1: a concrete write under a credential namespace is
invisible to a concrete anonymous read. -/
theorem user_data_namespace_isolation_w :
    (get_user_data none "subjects" .pnone
        (set_user_data (some "0123456789abcdef") "subjects"
          (.pstr "secret") (fun _ => none))).1
      = (get_user_data none "subjects" .pnone (fun _ => none)).1 :=
  user_data_namespace_isolation "0123456789abcdef" none (by decide)
    (by intro h hh; cases hh) (by intro hh; cases hh)
    "subjects" "subjects" (by decide) (by decide)
    (.pstr "secret") .pnone (fun _ => none)

/-- An API-key change either leaves the store alone or applies
`ensure_user_data_exists` for the fingerprint of the entered key. -/
lemma stmApiKeyChange_store_cases (fp : String → String) (input prev : String)
    (hash0 : Option String) (s : Store) :
    (stmApiKeyChange fp input prev hash0 s).2.2 = s ∨
      (stmApiKeyChange fp input prev hash0 s).2.2
        = ensure_user_data_exists (some (fp input)) s := by
  unfold stmApiKeyChange
  split_ifs <;> simp

/-- Claim C2: switching the active credential from C1 to C2 (which runs
`ensure_user_data_exists` under C2's fingerprint) and then back to C1
leaves every key that was present under C1's namespace with exactly the
value it had before: the ensure path only writes a default when the
prefixed key is absent. -/
theorem switch_credentials_preserves_user_data (fp : String → String)
    (c1 c2 : String) (s : Store) (base_key : String) (v : PyVal)
    (hv : s (getUserKey (some (fp c1)) base_key) = some v) :
    ((stmApiKeyChange fp c1 c2
        (stmApiKeyChange fp c2 c1 (some (fp c1)) s).2.1
        (stmApiKeyChange fp c2 c1 (some (fp c1)) s).2.2).2.2)
      (getUserKey (some (fp c1)) base_key) = some v := by
  have hinner := stmApiKeyChange_store_cases fp c2 c1 (some (fp c1)) s
  have houter := stmApiKeyChange_store_cases fp c1 c2
      (stmApiKeyChange fp c2 c1 (some (fp c1)) s).2.1
      (stmApiKeyChange fp c2 c1 (some (fp c1)) s).2.2
  rcases houter with h2 | h2 <;> rw [h2] <;>
    rcases hinner with h1 | h1 <;> rw [h1] <;>
    first
      | exact hv
      | exact ensure_user_data_exists_preserves _ _ _ _ hv
      | exact ensure_user_data_exists_preserves _ _ _ _
          (ensure_user_data_exists_preserves _ _ _ _ hv)

/-- Witness for C2: a concrete value stored under credential `c1`
survives a switch to `c2` and back. -/
theorem switch_credentials_preserves_user_data_w :
    ((stmApiKeyChange (fun x => x) "c1" "c2"
        (stmApiKeyChange (fun x => x) "c2" "c1" (some "c1")
          (storeSet (fun _ => none) (getUserKey (some "c1") "subjects")
            (.pstr "mine"))).2.1
        (stmApiKeyChange (fun x => x) "c2" "c1" (some "c1")
          (storeSet (fun _ => none) (getUserKey (some "c1") "subjects")
            (.pstr "mine"))).2.2).2.2)
      (getUserKey (some "c1") "subjects") = some (.pstr "mine") :=
  switch_credentials_preserves_user_data (fun x => x) "c1" "c2"
    (storeSet (fun _ => none) (getUserKey (some "c1") "subjects")
      (.pstr "mine")) "subjects" (.pstr "mine") (by simp [storeSet])

/-! ### Subjects and syllabus page (Subject-Time-Manger.py lines 300-378) -/

/-- A subject record as built by the add-subject form
(Subject-Time-Manger.py lines 334-341). -/
structure Subject where
  name : String
  syllabus : List String
  difficulty : String
  priority : String
  hours_per_week : Nat
  added_date : String
deriving DecidableEq

/-- Characters removed by Python `str.strip` (ASCII whitespace). -/
def isPySpace (c : Char) : Bool :=
  c == ' ' || c == '\t' || c == '\n' || c == '\r' || c == '\x0b' || c == '\x0c'

/-- Embeds Python `str.strip`: whitespace removed from both ends. -/
def pyStrip (s : String) : String :=
  String.mk (((s.data.dropWhile isPySpace).reverse.dropWhile isPySpace).reverse)

/-- Embeds Python `str.lower`: each character lowercased. -/
def pyLower (s : String) : String :=
  String.mk (s.data.map Char.toLower)

/-- Embeds the list comprehension of Subject-Time-Manger.py line 336: the
syllabus text area is split on newlines, each line stripped, and blank
lines dropped. -/
def parseTopics (content : String) : List String :=
  ((content.splitOn "\n").map pyStrip).filter (fun t => t ≠ "")

/-- The per-namespace state the subjects page operates on: the subjects
list and the syllabus dict (modelled as a partial map from subject names
to topic lists). -/
structure SubjState where
  subjects : List Subject
  syllabus : String → Option (List String)

/-- The inline message produced by the add-subject form handler. -/
inductive FormMsg where
  | nothing : FormMsg
  | errorExists : String → FormMsg
  | success : String → FormMsg
deriving DecidableEq

/-- Embeds the add_subject_form submit handler (Subject-Time-Manger.py
lines 333-354).  The body runs only when the form was submitted with a
non-empty name (Python truthiness); a name matching an existing subject
case-insensitively is rejected with an inline error and no state change;
otherwise the subject is appended and its parsed topics stored in the
syllabus dict under the entered name.  No branch performs an external
call. -/
def addSubjectForm (submitted : Bool)
    (subject_name content difficulty priority : String)
    (hours : Nat) (today : String) (s : SubjState) : SubjState × FormMsg :=
  if submitted = true ∧ subject_name ≠ "" then
    if (s.subjects.filter
          (fun sub => pyLower sub.name == pyLower subject_name)) ≠ [] then
      (s, .errorExists subject_name)
    else
      ({ subjects := s.subjects ++
           [⟨subject_name, parseTopics content, difficulty, priority, hours,
             today⟩],
         syllabus := fun k =>
           if k = subject_name then some (parseTopics content)
           else s.syllabus k },
       .success subject_name)
  else (s, .nothing)

/-- Embeds the remove-subject button handler (Subject-Time-Manger.py
lines 371-378): pop the subject at the clicked index from the subjects
list and delete its name from the syllabus dict.  An out-of-range index
or a missing dict key raises in Python; both are modelled by `none`. -/
def removeSubjectBtn (idx : Nat) (s : SubjState) : Option SubjState :=
  match s.subjects[idx]? with
  | none => none
  | some subj =>
      match s.syllabus subj.name with
      | none => none
      | some _ =>
          some { subjects := s.subjects.eraseIdx idx,
                 syllabus := fun k =>
                   if k = subj.name then none else s.syllabus k }

/-! ### List helper lemmas for eraseIdx -/

lemma rel_of_mem_eraseIdx {α : Type} {R : α → α → Prop}
    (hsymm : ∀ x y, R x y → R y x) :
    ∀ (l : List α) (i : Nat) (a : α), l[i]? = some a → l.Pairwise R →
      ∀ b ∈ l.eraseIdx i, R a b := by
  intro l
  induction l with
  | nil => intro i a ha; simp at ha
  | cons x xs ih =>
      intro i a ha hp b hb
      have hx := List.pairwise_cons.1 hp
      cases i with
      | zero =>
          simp only [List.getElem?_cons_zero, Option.some.injEq] at ha
          subst ha
          simp only [List.eraseIdx] at hb
          exact hx.1 b hb
      | succ j =>
          simp only [List.getElem?_cons_succ] at ha
          simp only [List.eraseIdx, List.mem_cons] at hb
          rcases hb with rfl | hb
          · obtain ⟨hlt, he⟩ := List.getElem?_eq_some.1 ha
            have hamem : a ∈ xs := he ▸ List.getElem_mem hlt
            exact hsymm _ _ (hx.1 a hamem)
          · exact ih j a ha hx.2 b hb

lemma mem_eraseIdx_of_mem {α : Type} :
    ∀ (l : List α) (i : Nat) (a b : α), l[i]? = some a → b ∈ l → b ≠ a →
      b ∈ l.eraseIdx i := by
  intro l
  induction l with
  | nil => intro i a b ha; simp at ha
  | cons x xs ih =>
      intro i a b ha hb hne
      cases i with
      | zero =>
          simp only [List.getElem?_cons_zero, Option.some.injEq] at ha
          subst ha
          simp only [List.eraseIdx]
          rcases List.mem_cons.1 hb with rfl | hb
          · exact absurd rfl hne
          · exact hb
      | succ j =>
          simp only [List.getElem?_cons_succ] at ha
          simp only [List.eraseIdx, List.mem_cons]
          rcases List.mem_cons.1 hb with rfl | hb
          · exact Or.inl rfl
          · exact Or.inr (ih j a b ha hb hne)

/-! ### Claims C6, C7 and C9 -/

/-- Claim C6: submitting the add-subject form with a non-empty name that
matches an existing subject case-insensitively is rejected with an inline
error message, and the subjects list and syllabus map are returned
unchanged (the handler, as embedded, performs no external call). -/
theorem add_duplicate_subject_rejected
    (subject_name content difficulty priority : String) (hours : Nat)
    (today : String) (s : SubjState)
    (hname : subject_name ≠ "")
    (hdup : ∃ sub ∈ s.subjects, pyLower sub.name = pyLower subject_name) :
    addSubjectForm true subject_name content difficulty priority hours
        today s
      = (s, FormMsg.errorExists subject_name) := by
  obtain ⟨sub, hmem, hl⟩ := hdup
  unfold addSubjectForm
  rw [if_pos ⟨rfl, hname⟩, if_pos]
  exact List.ne_nil_of_mem (List.mem_filter.2 ⟨hmem, by simp [hl]⟩)

/-- Witness for C6: adding MATH when math exists is rejected and the
state is unchanged. -/
theorem add_duplicate_subject_rejected_w :
    addSubjectForm true "MATH" "Algebra" "Easy" "Low" 3 "2026-01-01"
        ⟨[⟨"math", ["Algebra"], "Easy", "Low", 3, "2026-01-01"⟩],
         fun k => if k = "math" then some ["Algebra"] else none⟩
      = (⟨[⟨"math", ["Algebra"], "Easy", "Low", 3, "2026-01-01"⟩],
          fun k => if k = "math" then some ["Algebra"] else none⟩,
         FormMsg.errorExists "MATH") :=
  add_duplicate_subject_rejected "MATH" "Algebra" "Easy" "Low" 3
    "2026-01-01" _ (by decide)
    ⟨⟨"math", ["Algebra"], "Easy", "Low", 3, "2026-01-01"⟩, by simp,
      by decide⟩

/-- Claim C7: removing the subject at a valid index deletes it from the
subjects list and deletes its name from the syllabus map, so a subsequent
syllabus lookup for that name finds no entry. -/
theorem remove_subject_deletes_syllabus_entry (idx : Nat) (s : SubjState)
    (subj : Subject) (hidx : s.subjects[idx]? = some subj)
    (hkey : (s.syllabus subj.name).isSome) :
    ∃ s2, removeSubjectBtn idx s = some s2 ∧
      s2.subjects = s.subjects.eraseIdx idx ∧
      s2.subjects.length = s.subjects.length - 1 ∧
      s2.syllabus subj.name = none := by
  cases hk : s.syllabus subj.name with
  | none => rw [hk] at hkey; cases hkey
  | some t =>
      obtain ⟨hlt, _⟩ := List.getElem?_eq_some.1 hidx
      refine ⟨{ subjects := s.subjects.eraseIdx idx,
                syllabus := fun k =>
                  if k = subj.name then none else s.syllabus k },
        ?_, rfl, ?_, ?_⟩
      · simp only [removeSubjectBtn, hidx, hk]
      · rw [List.length_eraseIdx]; simp [hlt]
      · simp

/-- Witness for C7: removing the only subject of a concrete state empties
the subjects list and the syllabus entry. -/
theorem remove_subject_deletes_syllabus_entry_w :
    ∃ s2, removeSubjectBtn 0
        ⟨[⟨"math", ["Algebra"], "Easy", "Low", 3, "2026-01-01"⟩],
         fun k => if k = "math" then some ["Algebra"] else none⟩ = some s2 ∧
      s2.subjects
        = ([⟨"math", ["Algebra"], "Easy", "Low", 3, "2026-01-01"⟩] :
            List Subject).eraseIdx 0 ∧
      s2.subjects.length
        = ([⟨"math", ["Algebra"], "Easy", "Low", 3, "2026-01-01"⟩] :
            List Subject).length - 1 ∧
      s2.syllabus "math" = none :=
  remove_subject_deletes_syllabus_entry 0
    ⟨[⟨"math", ["Algebra"], "Easy", "Low", 3, "2026-01-01"⟩],
     fun k => if k = "math" then some ["Algebra"] else none⟩
    ⟨"math", ["Algebra"], "Easy", "Low", 3, "2026-01-01"⟩ (by simp)
    (by simp)

/-- The invariant relating the subjects list and the syllabus map of a
namespace: syllabus keys are exactly the subject names and each entry is
that subject's topic list, strengthened with the case-insensitive
uniqueness of names that the add handler enforces. -/
def SubjInv (s : SubjState) : Prop :=
  (∀ sub ∈ s.subjects, s.syllabus sub.name = some sub.syllabus) ∧
  (∀ n, (s.syllabus n).isSome → ∃ sub ∈ s.subjects, sub.name = n) ∧
  s.subjects.Pairwise (fun a b => pyLower a.name ≠ pyLower b.name)

/-- Claim C9: the add-subject and remove-subject handlers keep the
invariant that the syllabus map's key set equals the set of subject names
and that each subject's entry is its topic list (parsed one topic per
non-blank stripped line by the add handler). -/
theorem subjects_syllabus_invariant (submitted : Bool)
    (subject_name content difficulty priority : String) (hours : Nat)
    (today : String) (s : SubjState) (hinv : SubjInv s) :
    SubjInv (addSubjectForm submitted subject_name content difficulty
        priority hours today s).1 ∧
    ∀ idx s2, removeSubjectBtn idx s = some s2 → SubjInv s2 := by
  obtain ⟨h1, h2, h3⟩ := hinv
  constructor
  · unfold addSubjectForm
    by_cases hsub : submitted = true ∧ subject_name ≠ ""
    · rw [if_pos hsub]
      by_cases hdup : (s.subjects.filter
          (fun sub => pyLower sub.name == pyLower subject_name)) ≠ []
      · rw [if_pos hdup]; exact ⟨h1, h2, h3⟩
      · rw [if_neg hdup]
        push_neg at hdup
        have hno : ∀ sub ∈ s.subjects,
            ¬ pyLower sub.name = pyLower subject_name := by
          intro sub hmem heq
          have hin : sub ∈ s.subjects.filter
              (fun sub => pyLower sub.name == pyLower subject_name) :=
            List.mem_filter.2 ⟨hmem, by simp [heq]⟩
          rw [hdup] at hin
          simp at hin
        refine ⟨?_, ?_, ?_⟩
        · intro sub hmem
          rcases List.mem_append.1 hmem with hmem | hmem
          · have hne : sub.name ≠ subject_name := fun he =>
              hno sub hmem (by rw [he])
            simpa [hne] using h1 sub hmem
          · simp only [List.mem_singleton] at hmem
            subst hmem
            simp
        · intro n hn
          by_cases hns : n = subject_name
          · exact ⟨⟨subject_name, parseTopics content, difficulty, priority,
                hours, today⟩, List.mem_append.2 (Or.inr (by simp)),
              hns.symm⟩
          · simp only [hns, if_false] at hn
            obtain ⟨sub, hmem, hname⟩ := h2 n (by simpa [hns] using hn)
            exact ⟨sub, List.mem_append.2 (Or.inl hmem), hname⟩
        · rw [List.pairwise_append]
          refine ⟨h3, List.pairwise_singleton _ _, ?_⟩
          intro a ha b hb
          simp only [List.mem_singleton] at hb
          subst hb
          exact fun heq => hno a ha heq
    · rw [if_neg hsub]; exact ⟨h1, h2, h3⟩
  · intro idx s2 hrem
    unfold removeSubjectBtn at hrem
    cases hidx : s.subjects[idx]? with
    | none => rw [hidx] at hrem; cases hrem
    | some subj =>
        simp only [hidx] at hrem
        cases hk : s.syllabus subj.name with
        | none => simp only [hk] at hrem; cases hrem
        | some t =>
            simp only [hk, Option.some.injEq] at hrem
            subst hrem
            have hrel := rel_of_mem_eraseIdx
              (R := fun a b : Subject => pyLower a.name ≠ pyLower b.name)
              (fun x y hxy => fun he => hxy he.symm)
              s.subjects idx subj hidx h3
            refine ⟨?_, ?_, ?_⟩
            · intro sub hmem
              have hsubl : sub ∈ s.subjects :=
                (List.eraseIdx_sublist s.subjects idx).subset hmem
              have hne : sub.name ≠ subj.name := fun he =>
                hrel sub hmem (by rw [he])
              simpa [Ne.symm hne, hne] using h1 sub hsubl
            · intro n hn
              by_cases hns : n = subj.name
              · simp [hns] at hn
              · obtain ⟨sub, hmem, hname⟩ :=
                  h2 n (by simpa [hns] using hn)
                have hne : sub ≠ subj := fun he =>
                  hns (by rw [← hname, he])
                exact ⟨sub,
                  mem_eraseIdx_of_mem s.subjects idx subj sub hidx hmem hne,
                  hname⟩
            · exact List.Pairwise.sublist
                (List.eraseIdx_sublist s.subjects idx) h3

/-- Witness for C9: the invariant holds for the empty namespace state and
is kept when a concrete subject is added. -/
theorem subjects_syllabus_invariant_w :
    SubjInv (addSubjectForm true "math" "Algebra" "Easy" "Low" 3
        "2026-01-01" ⟨[], fun _ => none⟩).1 ∧
    ∀ idx s2, removeSubjectBtn idx ⟨[], fun _ => none⟩ = some s2 →
      SubjInv s2 :=
  subjects_syllabus_invariant true "math" "Algebra" "Easy" "Low" 3
    "2026-01-01" ⟨[], fun _ => none⟩
    ⟨by intro sub h; simp at h, by intro n h; simp at h, by simp⟩

/-! ### Tests page (Subject-Time-Manger.py lines 455-627) -/

/-- A multiple-choice question of a generated test, the shape requested
from the generator (Subject-Time-Manger.py lines 506-516). -/
structure Question where
  question : String
  options : List String
  correct : String
  explanation : String
deriving DecidableEq

/-- The current test installed by the generation handler
(Subject-Time-Manger.py lines 538-544). -/
structure CurrentTest where
  subject : String
  type : String
  difficulty : String
  questions : List Question
  created_at : String
deriving DecidableEq

/-- A test-history record appended on submission
(Subject-Time-Manger.py lines 580-588).  The score is modelled as an
exact rational; Python evaluates the same expression in floating point. -/
structure TestResult where
  subject : String
  type : String
  difficulty : String
  score : ℚ
  correct : Nat
  total : Nat
  date : String
deriving DecidableEq

/-- The session keys the tests page reads and writes. -/
structure TestsState where
  current_test : Option CurrentTest
  test_answers : Nat → Option String
  test_history : List TestResult

/-- Embeds the grading loop of the submit handler
(Subject-Time-Manger.py lines 571-576): walking the questions with their
indices, one point whenever the recorded answer (Python `None` when the
question was left unanswered) equals the question's correct label. -/
def gradeCountAux (ans : Nat → Option String) : Nat → List Question → Nat
  | _, [] => 0
  | i, q :: qs =>
      (if ans i = some q.correct then 1 else 0) + gradeCountAux ans (i + 1) qs

def gradeCount (qs : List Question) (ans : Nat → Option String) : Nat :=
  gradeCountAux ans 0 qs

/-- Embeds the test_form submit handler (Subject-Time-Manger.py lines
570-606): count correct answers, compute the percentage score, append one
TestResult to the history, then set the current test to `None` and the
answer scratchpad to the empty dict. -/
def submitTest (ct : CurrentTest) (ans : Nat → Option String)
    (hist : List TestResult) (now : String) : TestsState :=
  { current_test := none,
    test_answers := fun _ => none,
    test_history := hist ++
      [⟨ct.subject, ct.type, ct.difficulty,
        ((gradeCount ct.questions ans : ℚ) / (ct.questions.length : ℚ)) * 100,
        gradeCount ct.questions ans, ct.questions.length, now⟩] }

/-! ### Grading lemmas -/

lemma gradeCountAux_eq_countP (ans : Nat → Option String) :
    ∀ (qs : List Question) (st : Nat),
      gradeCountAux ans st qs
        = (List.range qs.length).countP
            (fun i => decide
              (ans (st + i) = (qs[i]?).map Question.correct)) := by
  intro qs
  induction qs with
  | nil => intro st; simp [gradeCountAux]
  | cons q tl ih =>
      intro st
      rw [gradeCountAux, List.length_cons, List.range_succ_eq_map,
        List.countP_cons, List.countP_map]
      have hmap : ((List.range tl.length).countP
            ((fun i => decide
              (ans (st + i) = ((q :: tl)[i]?).map Question.correct)) ∘
              Nat.succ))
          = (List.range tl.length).countP
            (fun i => decide
              (ans (st + 1 + i) = (tl[i]?).map Question.correct)) := by
        apply List.countP_congr
        intro i _
        simp only [Function.comp_apply, Nat.succ_eq_add_one,
          List.getElem?_cons_succ]
        have harith : st + (i + 1) = st + 1 + i := by omega
        rw [harith]
      rw [hmap, ← ih (st + 1)]
      simp only [Nat.add_zero, List.getElem?_cons_zero, Option.map_some,
        decide_eq_true_eq]
      by_cases hq : ans st = some q.correct <;> simp [hq, Nat.add_comm]

lemma gradeCount_eq_countP (qs : List Question) (ans : Nat → Option String) :
    gradeCount qs ans
      = (List.range qs.length).countP
          (fun i => decide (ans i = (qs[i]?).map Question.correct)) := by
  have h := gradeCountAux_eq_countP ans qs 0
  simpa [gradeCount] using h

lemma gradeCountAux_all_none (ans : Nat → Option String)
    (h : ∀ i, ans i = none) :
    ∀ (qs : List Question) (st : Nat), gradeCountAux ans st qs = 0 := by
  intro qs
  induction qs with
  | nil => intro st; rfl
  | cons q tl ih =>
      intro st
      rw [gradeCountAux, ih (st + 1), h st]
      simp

/-! ### Claims C3 and C10 -/

/-- Claim C3: submitting a current test with at least one question and an
answer map in which exactly k indices carry the question's correct label
yields a score of exactly 100*k/n, appends exactly one TestResult with
that score, correct count k and total n to the test history, and
afterwards the current test is `None` and the answer scratchpad empty. -/
theorem submit_test_records_result (ct : CurrentTest)
    (ans : Nat → Option String) (hist : List TestResult) (now : String)
    (k : Nat)
    (hn : 1 ≤ ct.questions.length)
    (hk : k = (List.range ct.questions.length).countP
        (fun i => decide (ans i = (ct.questions[i]?).map Question.correct))) :
    submitTest ct ans hist now =
      { current_test := none,
        test_answers := fun _ => none,
        test_history := hist ++ [⟨ct.subject, ct.type, ct.difficulty,
          (100 * k : ℚ) / (ct.questions.length : ℚ), k,
          ct.questions.length, now⟩] } := by
  have hg : gradeCount ct.questions ans = k := by
    rw [gradeCount_eq_countP, hk]
  have hsc : ((k : ℚ) / (ct.questions.length : ℚ)) * 100
      = (100 * k : ℚ) / (ct.questions.length : ℚ) := by ring
  rw [submitTest, hg, hsc]

/-- Witness for C3: a concrete one-question test answered correctly
scores 100, is recorded once, and the test state is cleared. -/
theorem submit_test_records_result_w :
    submitTest
        ⟨"math", "Quick Test (5 questions)", "Easy",
          [⟨"q1", ["A. yes", "B. no"], "A", "because"⟩], "2026-01-01"⟩
        (fun i => if i = 0 then some "A" else none) [] "2026-01-02"
      = { current_test := none,
          test_answers := fun _ => none,
          test_history := [] ++ [⟨"math", "Quick Test (5 questions)",
            "Easy", (100 * 1 : ℚ) / ((1 : Nat) : ℚ), 1, 1,
            "2026-01-02"⟩] } :=
  submit_test_records_result
    ⟨"math", "Quick Test (5 questions)", "Easy",
      [⟨"q1", ["A. yes", "B. no"], "A", "because"⟩], "2026-01-01"⟩
    (fun i => if i = 0 then some "A" else none) [] "2026-01-02" 1
    (by decide) (by decide)

/-- Claim C10: on submission every unanswered question (recorded answer
Python `None`) counts as incorrect, the correct count is bounded by the
number of answered questions and by n, the score lies between 0 and 100,
and submitting with no answers at all yields score 0. -/
theorem submit_test_score_bounds (ct : CurrentTest)
    (ans : Nat → Option String) (hist : List TestResult) (now : String)
    (hn : 1 ≤ ct.questions.length) :
    ∃ r : TestResult,
      (submitTest ct ans hist now).test_history = hist ++ [r] ∧
      r.correct ≤ (List.range ct.questions.length).countP
          (fun i => (ans i).isSome) ∧
      r.correct ≤ r.total ∧ r.total = ct.questions.length ∧
      0 ≤ r.score ∧ r.score ≤ 100 ∧
      ((∀ i, ans i = none) → r.score = 0) := by
  have hcn : gradeCount ct.questions ans ≤ ct.questions.length := by
    rw [gradeCount_eq_countP]
    calc (List.range ct.questions.length).countP _
        ≤ (List.range ct.questions.length).length := List.countP_le_length _
      _ = ct.questions.length := List.length_range _
  have hpos : (0 : ℚ) < (ct.questions.length : ℚ) := by
    exact_mod_cast Nat.lt_of_lt_of_le Nat.zero_lt_one hn
  refine ⟨_, rfl, ?_, hcn, rfl, ?_, ?_, ?_⟩
  · rw [gradeCount_eq_countP]
    apply List.countP_mono_left
    intro i hi hdec
    rw [List.mem_range] at hi
    rcases hq : ct.questions[i]? with _ | q
    · rw [List.getElem?_eq_getElem hi] at hq; cases hq
    · rw [hq] at hdec
      simp only [Option.map_some, decide_eq_true_eq] at hdec
      simp [hdec]
  · apply mul_nonneg
    · apply div_nonneg <;> positivity
    · norm_num
  · have h1 : ((gradeCount ct.questions ans : ℚ) /
        (ct.questions.length : ℚ)) ≤ 1 := by
      rw [div_le_one hpos]
      exact_mod_cast hcn
    calc ((gradeCount ct.questions ans : ℚ) /
          (ct.questions.length : ℚ)) * 100
        ≤ 1 * 100 := by
          exact mul_le_mul_of_nonneg_right h1 (by norm_num)
      _ = 100 := by norm_num
  · intro hnone
    have h0 : gradeCount ct.questions ans = 0 :=
      gradeCountAux_all_none ans hnone ct.questions 0
    simp [h0]

/-- Witness for C10: submitting a concrete one-question test with no
answers yields a record with score 0 within bounds. -/
theorem submit_test_score_bounds_w :
    ∃ r : TestResult,
      (submitTest
          ⟨"math", "Quick Test (5 questions)", "Easy",
            [⟨"q1", ["A. yes", "B. no"], "A", "because"⟩], "2026-01-01"⟩
          (fun _ => none) [] "2026-01-02").test_history = [] ++ [r] ∧
      r.correct ≤ (List.range
          ([⟨"q1", ["A. yes", "B. no"], "A", "because"⟩] :
            List Question).length).countP
          (fun _ => (none : Option String).isSome) ∧
      r.correct ≤ r.total ∧
      r.total = ([⟨"q1", ["A. yes", "B. no"], "A", "because"⟩] :
          List Question).length ∧
      0 ≤ r.score ∧ r.score ≤ 100 ∧
      ((∀ _i : Nat, (none : Option String) = none) → r.score = 0) :=
  submit_test_score_bounds
    ⟨"math", "Quick Test (5 questions)", "Easy",
      [⟨"q1", ["A. yes", "B. no"], "A", "because"⟩], "2026-01-01"⟩
    (fun _ => none) [] "2026-01-02" (by decide)

/-! ### Test-generation output parsing (Subject-Time-Manger.py 529-549) -/

/-- Index of the first character satisfying `p`, or `none`. -/
def findIdxFrom (p : Char → Bool) : List Char → Option Nat
  | [] => none
  | c :: cs =>
      if p c then some 0 else
        match findIdxFrom p cs with
        | none => none
        | some i => some (i + 1)

/-- Index of the first opening brace of the raw output. -/
def firstBraceIdx (cs : List Char) : Option Nat :=
  findIdxFrom (fun c => c == '\x7b') cs

/-- Index of the last closing brace of the raw output. -/
def lastBraceIdx (cs : List Char) : Option Nat :=
  match findIdxFrom (fun c => c == '\x7d') cs.reverse with
  | none => none
  | some j => some (cs.length - 1 - j)

/-- Embeds the regex search of Subject-Time-Manger.py line 532: a greedy
dot-all match of an open brace, anything, a close brace.  Such a match
exists exactly when some closing brace follows some opening brace, and it
then spans from the first opening brace to the last closing brace of the
whole string. -/
def extractBraces (raw : String) : Option String :=
  match firstBraceIdx raw.data, lastBraceIdx raw.data with
  | some i, some j =>
      if i < j then some (String.mk ((raw.data.drop i).take (j - i + 1)))
      else none
  | _, _ => none

/-- Embeds lines 532-536: the text handed to `json.loads` is the regex
match when one exists and the whole raw output otherwise. -/
def jsonCandidate (raw : String) : String :=
  match extractBraces raw with
  | some t => t
  | none => raw

/-- Embeds the try block of lines 529-549 around an abstract JSON parse:
`parse` stands for `json.loads` composed with the access to the
`questions` field, returning `none` whenever either raises.  On success
the current test is installed with the parsed questions and the answer
scratchpad cleared; on failure the state is untouched and the raw text is
displayed to the user (the returned flag). -/
def handleTestGeneration (parse : String → Option (List Question))
    (raw subj ttyp diff now : String) (st : TestsState) :
    TestsState × Bool :=
  match parse (jsonCandidate raw) with
  | some qs =>
      ({ current_test := some ⟨subj, ttyp, diff, qs, now⟩,
         test_answers := fun _ => none,
         test_history := st.test_history }, false)
  | none => (st, true)

/-! ### Lemmas about brace extraction -/

lemma findIdxFrom_eq_some (p : Char → Bool) :
    ∀ (cs : List Char) (i : Nat), findIdxFrom p cs = some i →
      ∃ c, cs[i]? = some c ∧ p c = true ∧
        ∀ i', i' < i → ∀ c', cs[i']? = some c' → p c' = false := by
  intro cs
  induction cs with
  | nil => intro i h; cases h
  | cons c cs ih =>
      intro i h
      rw [findIdxFrom] at h
      by_cases hp : p c
      · rw [if_pos hp] at h
        cases h
        exact ⟨c, by simp, hp, fun i' hi' => by omega⟩
      · rw [if_neg hp] at h
        cases hrec : findIdxFrom p cs with
        | none => simp only [hrec] at h; cases h
        | some j =>
            simp only [hrec, Option.some.injEq] at h
            subst h
            obtain ⟨d, hd, hpd, hmin⟩ := ih j hrec
            refine ⟨d, by rw [List.getElem?_cons_succ]; exact hd, hpd, ?_⟩
            intro i' hi' c' hc'
            cases i' with
            | zero =>
                simp only [List.getElem?_cons_zero, Option.some.injEq] at hc'
                subst hc'
                exact Bool.eq_false_iff.2 hp
            | succ i'' =>
                rw [List.getElem?_cons_succ] at hc'
                exact hmin i'' (by omega) c' hc'

lemma findIdxFrom_eq_none (p : Char → Bool) :
    ∀ (cs : List Char), findIdxFrom p cs = none →
      ∀ c ∈ cs, p c = false := by
  intro cs
  induction cs with
  | nil => intro _ c hc; cases hc
  | cons c cs ih =>
      intro h d hd
      rw [findIdxFrom] at h
      by_cases hp : p c
      · rw [if_pos hp] at h; cases h
      · rw [if_neg hp] at h
        rcases List.mem_cons.1 hd with rfl | hd
        · exact Bool.eq_false_iff.2 hp
        · cases hrec : findIdxFrom p cs with
          | none => exact ih hrec d hd
          | some j => simp only [hrec] at h; cases h

lemma getElem?_reverse_aux {α : Type} (l : List α) (i : Nat)
    (h : i < l.length) : l.reverse[i]? = l[l.length - 1 - i]? := by
  have h1 : i < l.reverse.length := by simpa using h
  have h2 : l.length - 1 - i < l.length := by omega
  rw [List.getElem?_eq_getElem h1, List.getElem?_eq_getElem h2]
  rw [List.getElem_reverse]

lemma findIdxFrom_lt_length (p : Char → Bool) (cs : List Char) (i : Nat)
    (h : findIdxFrom p cs = some i) : i < cs.length := by
  obtain ⟨c, hc, -, -⟩ := findIdxFrom_eq_some p cs i h
  by_contra hcon
  rw [List.getElem?_eq_none (by omega)] at hc
  cases hc

/-- Characterization of `lastBraceIdx`: it points at a closing brace and
no later position holds one. -/
lemma lastBraceIdx_spec (cs : List Char) (j : Nat)
    (h : lastBraceIdx cs = some j) :
    cs[j]? = some '\x7d' ∧
      ∀ j', j < j' → ∀ c', cs[j']? = some c' → c' ≠ '\x7d' := by
  rw [lastBraceIdx] at h
  cases hrec : findIdxFrom (fun c => c == '\x7d') cs.reverse with
  | none => simp only [hrec] at h; cases h
  | some r =>
      simp only [hrec, Option.some.injEq] at h
      subst h
      have hrlt : r < cs.length := by
        have := findIdxFrom_lt_length _ _ _ hrec
        simpa using this
      obtain ⟨c, hc, hpc, hmin⟩ := findIdxFrom_eq_some _ _ _ hrec
      rw [getElem?_reverse_aux cs r hrlt] at hc
      constructor
      · have hcq : c = '\x7d' := by simpa using hpc
        rw [← hcq]; exact hc
      · intro j' hj' c' hc' hq
        subst hq
        have hj'lt : j' < cs.length := by
          by_contra hcon
          rw [List.getElem?_eq_none (by omega)] at hc'
          cases hc'
        have hrev : cs.reverse[cs.length - 1 - j']? = some '\x7d' := by
          rw [getElem?_reverse_aux cs (cs.length - 1 - j') (by omega)]
          have hidxeq : cs.length - 1 - (cs.length - 1 - j') = j' := by
            omega
          rw [hidxeq]
          exact hc'
        have := hmin (cs.length - 1 - j') (by omega) _ hrev
        simp at this

/-- Characterization of `firstBraceIdx`: it points at an opening brace
and no earlier position holds one. -/
lemma firstBraceIdx_spec (cs : List Char) (i : Nat)
    (h : firstBraceIdx cs = some i) :
    cs[i]? = some '\x7b' ∧
      ∀ i', i' < i → ∀ c', cs[i']? = some c' → c' ≠ '\x7b' := by
  obtain ⟨c, hc, hpc, hmin⟩ := findIdxFrom_eq_some _ _ _ h
  constructor
  · have hcq : c = '\x7b' := by simpa using hpc
    rw [← hcq]; exact hc
  · intro i' hi' c' hc' hq
    subst hq
    have := hmin i' hi' _ hc'
    simp at this

/-! ### Claim C4 -/

/-- Claim C4: the parsing step hands `json.loads` the greedy dot-all
brace match of the raw output: whenever the match exists, its substring
runs exactly from the first opening brace to the last closing brace of
the whole output (newlines included); when no such match exists, the
whole raw string is parsed instead (and no brace pair exists at all);
and on any parse failure no current test is installed — the state is
returned unchanged — and the raw text is displayed to the user. -/
theorem test_generation_parsing (parse : String → Option (List Question))
    (raw subj ttyp diff now : String) (st : TestsState)
    (hfail : parse (jsonCandidate raw) = none) :
    handleTestGeneration parse raw subj ttyp diff now st = (st, true) ∧
    (∀ t, extractBraces raw = some t →
      ∃ i j : Nat, i < j ∧ raw.data[i]? = some '\x7b' ∧
        raw.data[j]? = some '\x7d' ∧
        (∀ i', i' < i → ∀ c', raw.data[i']? = some c' → c' ≠ '\x7b') ∧
        (∀ j', j < j' → ∀ c', raw.data[j']? = some c' → c' ≠ '\x7d') ∧
        t.data = (raw.data.drop i).take (j - i + 1) ∧
        jsonCandidate raw = t) ∧
    (extractBraces raw = none →
      jsonCandidate raw = raw ∧
        ¬ ∃ i j : Nat, i < j ∧ raw.data[i]? = some '\x7b' ∧
          raw.data[j]? = some '\x7d') := by
  refine ⟨by simp [handleTestGeneration, hfail], ?_, ?_⟩
  · intro t ht
    have htc := ht
    simp only [extractBraces] at ht
    cases hfi : firstBraceIdx raw.data with
    | none => simp only [hfi] at ht; cases ht
    | some i0 =>
        cases hla : lastBraceIdx raw.data with
        | none => simp only [hfi, hla] at ht; cases ht
        | some j0 =>
            simp only [hfi, hla] at ht
            by_cases hij : i0 < j0
            · rw [if_pos hij] at ht
              injection ht with ht
              obtain ⟨hb1, hmin1⟩ := firstBraceIdx_spec raw.data i0 hfi
              obtain ⟨hb2, hmax2⟩ := lastBraceIdx_spec raw.data j0 hla
              refine ⟨i0, j0, hij, hb1, hb2, hmin1, hmax2, ?_, ?_⟩
              · rw [← ht]
              · simp only [jsonCandidate, htc]
            · rw [if_neg hij] at ht; cases ht
  · intro hnone
    refine ⟨by simp only [jsonCandidate, hnone], ?_⟩
    rintro ⟨i, j, hij, hbi, hbj⟩
    simp only [extractBraces] at hnone
    cases hfi : firstBraceIdx raw.data with
    | none =>
        have hall := findIdxFrom_eq_none _ _ hfi
        obtain ⟨hlt, he⟩ := List.getElem?_eq_some.1 hbi
        have hmem : '\x7b' ∈ raw.data := he ▸ List.getElem_mem hlt
        have := hall _ hmem
        simp at this
    | some i0 =>
        cases hla : lastBraceIdx raw.data with
        | none =>
            rw [lastBraceIdx] at hla
            cases hrec : findIdxFrom (fun c => c == '\x7d')
                raw.data.reverse with
            | none =>
                have hall := findIdxFrom_eq_none _ _ hrec
                obtain ⟨hlt, he⟩ := List.getElem?_eq_some.1 hbj
                have hmem : '\x7d' ∈ raw.data.reverse := by
                  rw [List.mem_reverse]
                  exact he ▸ List.getElem_mem hlt
                have := hall _ hmem
                simp at this
            | some r => simp only [hrec] at hla; cases hla
        | some j0 =>
            simp only [hfi, hla] at hnone
            by_cases hij0 : i0 < j0
            · rw [if_pos hij0] at hnone; cases hnone
            · obtain ⟨hb1, hmin1⟩ := firstBraceIdx_spec raw.data i0 hfi
              obtain ⟨hb2, hmax2⟩ := lastBraceIdx_spec raw.data j0 hla
              have hi0le : i0 ≤ i := by
                by_contra hcon
                exact hmin1 i (by omega) _ hbi rfl
              have hjle : j ≤ j0 := by
                by_contra hcon
                exact hmax2 j (by omega) _ hbj rfl
              omega

/-- Witness for C4: on a concrete raw output whose parse fails, the
handler leaves the state unchanged and displays the raw text, and the
extraction characterization holds for that output. -/
theorem test_generation_parsing_w :
    handleTestGeneration (fun _ => none) "noise \x7ba\x7d tail" "s" "t"
        "d" "now" ⟨none, fun _ => none, []⟩
      = (⟨none, fun _ => none, []⟩, true) ∧
    (∀ t, extractBraces "noise \x7ba\x7d tail" = some t →
      ∃ i j : Nat, i < j ∧
        ("noise \x7ba\x7d tail" : String).data[i]? = some '\x7b' ∧
        ("noise \x7ba\x7d tail" : String).data[j]? = some '\x7d' ∧
        (∀ i', i' < i → ∀ c',
          ("noise \x7ba\x7d tail" : String).data[i']? = some c' →
            c' ≠ '\x7b') ∧
        (∀ j', j < j' → ∀ c',
          ("noise \x7ba\x7d tail" : String).data[j']? = some c' →
            c' ≠ '\x7d') ∧
        t.data = ((("noise \x7ba\x7d tail" : String).data.drop i).take
          (j - i + 1)) ∧
        jsonCandidate "noise \x7ba\x7d tail" = t) ∧
    (extractBraces "noise \x7ba\x7d tail" = none →
      jsonCandidate "noise \x7ba\x7d tail" = "noise \x7ba\x7d tail" ∧
        ¬ ∃ i j : Nat, i < j ∧
          ("noise \x7ba\x7d tail" : String).data[i]? = some '\x7b' ∧
          ("noise \x7ba\x7d tail" : String).data[j]? = some '\x7d') :=
  test_generation_parsing (fun _ => none) "noise \x7ba\x7d tail" "s" "t"
    "d" "now" ⟨none, fun _ => none, []⟩ rfl

/-! ### Pipeline dispatch error handling (C5) -/

/-- Embeds the sales_crew dispatch of ColdEmail.py lines 143-148: the
kickoff call is wrapped in try/except; on success the generated email is
displayed (left injection), on failure a user-facing message carrying the
exception text is displayed (right injection).  The handler touches no
session state in either branch.  `kick` abstracts the external executor
call; `Except.error` stands for a raised exception. -/
def salesCrewHandler (kick : Except String String) : Sum String String :=
  match kick with
  | .ok r => .inl r
  | .error e => .inr ("Error generating email: " ++ e)

/-- The session keys Cold_Email.py writes on generation
(lines 15-17 and 224-225). -/
structure ColdEmailState where
  email_generated : Bool
  generated_email : String
deriving DecidableEq

/-- Embeds the email_crew dispatch of Cold_Email.py lines 120-228: agent
construction and kickoff run inside one try/except; on success the
generated email is stored and the flag set; on failure a message with the
exception text is shown and the session state is untouched. -/
def emailCrewHandler (kick : Except String String) (s : ColdEmailState) :
    ColdEmailState × Option String :=
  match kick with
  | .ok r => ({ email_generated := true, generated_email := r }, none)
  | .error e => (s, some (":x: Error generating email: " ++ e))

/-- Embeds the study-routine dispatch of Subject-Time-Manger.py lines
401-442: `crew.kickoff()` is not wrapped in any try/except, so an
executor error propagates out of the handler (the `Except.error` result)
and no handled user-facing message is produced; on success the routine
text replaces the stored routine. -/
def studyRoutineHandler (kick : Except String String)
    (routine : Option String) : Except String (Option String) :=
  match kick with
  | .ok r => .ok (some r)
  | .error e => .error e

/-! ### Claim C5 -/

/-- Claim C5 counterexample: the study-routine dispatch of
Subject-Time-Manger.py does not catch executor errors.  On a concrete
raised error the handler propagates the exception instead of returning a
handled user-facing error message, refuting the claim that every
pipeline dispatch in the repository reports a user-facing message
without crashing the caller. -/
theorem pipeline_error_unhandled_cex :
    studyRoutineHandler (Except.error "boom") (some "old routine")
      = Except.error "boom" := rfl

/-- Claim C5 (amended): in the cold-email apps (ColdEmail.py and
Cold_Email.py) an executor error is caught at the dispatch boundary, a
user-facing message containing the underlying error text is shown, and
the session state is left exactly as before the call; the
Subject-Time-Manger dispatches do not catch executor errors — the
exception propagates out of the handler. -/
theorem pipeline_error_handling_amended (e : String) (s : ColdEmailState)
    (routine : Option String) :
    salesCrewHandler (Except.error e)
        = Sum.inr ("Error generating email: " ++ e) ∧
    emailCrewHandler (Except.error e) s
        = (s, some (":x: Error generating email: " ++ e)) ∧
    studyRoutineHandler (Except.error e) routine = Except.error e :=
  ⟨rfl, rfl, rfl⟩

/-! ### Credential input handling (C8) -/

/-- Embeds the API-key sidebar of ColdEmail.py lines 33-40: a non-empty
(truthy) input is stripped, stored as the session key, and the stripped
value is written to both GOOGLE_API_KEY and GEMINI_API_KEY environment
variables; an empty input changes nothing. -/
def coldEmailApiKeySidebar (input : String) (apiKey : String)
    (env : String → Option String) :
    String × (String → Option String) :=
  if input ≠ "" then
    (pyStrip input, fun k =>
      if k = "GEMINI_API_KEY" then some (pyStrip input)
      else if k = "GOOGLE_API_KEY" then some (pyStrip input)
      else env k)
  else (apiKey, env)

/-- Embeds the API-key sidebar of Cold_Email.py lines 39-52: a non-empty
input is stripped and written to both environment variables (the same
value is handed to the LLM constructor); an empty input configures
nothing. -/
def coldEmailGenApiKeySidebar (input : String)
    (env : String → Option String) :
    Option String × (String → Option String) :=
  if input ≠ "" then
    (some (pyStrip input), fun k =>
      if k = "GEMINI_API_KEY" then some (pyStrip input)
      else if k = "GOOGLE_API_KEY" then some (pyStrip input)
      else env k)
  else (none, env)

/-! ### Claim C8 -/

/-- Claim C8 counterexample: the Subject-Time-Manger.py sidebar (lines
163-199) stores the entered credential verbatim, without trimming, and
its handler never writes an environment variable (the key goes straight
to the LLM constructor) — refuting the claim that every app trims the
key and sets GOOGLE_API_KEY and GEMINI_API_KEY. -/
theorem api_key_untrimmed_cex :
    (stmApiKeyChange (fun _ => "0123456789abcdef") " secret-key " ""
        none (fun _ => none)).1 = " secret-key " ∧
    pyStrip " secret-key " = "secret-key" := by
  constructor
  · rfl
  · rfl

/-- Claim C8 (amended): in ColdEmail.py and Cold_Email.py a non-empty
entered credential is stored stripped of surrounding whitespace, with no
further validation, and the same stripped value is set into both
GOOGLE_API_KEY and GEMINI_API_KEY for the external executor; in
Subject-Time-Manger.py the credential is stored exactly as entered and
no environment variable is written. -/
theorem api_key_sidebar_amended (input prev apiKey : String)
    (env : String → Option String) (fp : String → String) (s : Store)
    (hash0 : Option String)
    (hin : input ≠ "") (hchg : input ≠ prev) :
    (coldEmailApiKeySidebar input apiKey env).1 = pyStrip input ∧
    (coldEmailApiKeySidebar input apiKey env).2 "GOOGLE_API_KEY"
        = some (pyStrip input) ∧
    (coldEmailApiKeySidebar input apiKey env).2 "GEMINI_API_KEY"
        = some (pyStrip input) ∧
    (coldEmailGenApiKeySidebar input env).1 = some (pyStrip input) ∧
    (coldEmailGenApiKeySidebar input env).2 "GOOGLE_API_KEY"
        = some (pyStrip input) ∧
    (coldEmailGenApiKeySidebar input env).2 "GEMINI_API_KEY"
        = some (pyStrip input) ∧
    (stmApiKeyChange fp input prev hash0 s).1 = input := by
  unfold coldEmailApiKeySidebar coldEmailGenApiKeySidebar stmApiKeyChange
  refine ⟨?_, ?_, ?_, ?_, ?_, ?_, ?_⟩ <;> simp [hin, hchg]

/-- Witness for the amended C8 on a concrete padded credential. -/
theorem api_key_sidebar_amended_w :
    (coldEmailApiKeySidebar " k " "" (fun _ => none)).1 = pyStrip " k " ∧
    (coldEmailApiKeySidebar " k " "" (fun _ => none)).2 "GOOGLE_API_KEY"
        = some (pyStrip " k ") ∧
    (coldEmailApiKeySidebar " k " "" (fun _ => none)).2 "GEMINI_API_KEY"
        = some (pyStrip " k ") ∧
    (coldEmailGenApiKeySidebar " k " (fun _ => none)).1
        = some (pyStrip " k ") ∧
    (coldEmailGenApiKeySidebar " k " (fun _ => none)).2 "GOOGLE_API_KEY"
        = some (pyStrip " k ") ∧
    (coldEmailGenApiKeySidebar " k " (fun _ => none)).2 "GEMINI_API_KEY"
        = some (pyStrip " k ") ∧
    (stmApiKeyChange (fun _ => "0123456789abcdef") " k " "" none
        (fun _ => none)).1 = " k " :=
  api_key_sidebar_amended " k " "" "" (fun _ => none)
    (fun _ => "0123456789abcdef") (fun _ => none) none (by decide)
    (by decide)

end ColdEmailRepo
